import Mathlib

/-!
# Verification of the flow-log classifier (`flow_log_parser.py`)

Shallow embedding of the single-file Python program: the lookup-table loader
(`_load_lookups`), the per-line flow-record parser (`_parse_line`), the
aggregator (`process_logs`) and the report writer (`write_report`), together
with theorems settling the specification claims about them.

Python dictionaries are modelled as association lists whose assignment
overwrites the first matching key in place; text I/O is modelled by the list
of decoded lines, with an explicit flag for a decode failure occurring after
those lines were yielded.
-/

namespace FlowLog

/-- The six ASCII whitespace characters recognised by Python's `str.strip()`,
`str.split()` (no argument) and `int()`. -/
def isPySpace (c : Char) : Bool :=
  c = ' ' || c = '\t' || c = '\n' || c = '\x0d' || c = '\x0b' || c = '\x0c'

/-- Python `str.strip()`: remove leading and trailing whitespace. -/
def pyStrip (s : String) : String :=
  String.mk (((s.data.dropWhile isPySpace).reverse.dropWhile isPySpace).reverse)

/-- Helper for `pySplitWs`: accumulate the current field (reversed) while
scanning the character list. -/
def pySplitWsAux : List Char → List Char → List String
  | [], acc => if acc.isEmpty then [] else [String.mk acc.reverse]
  | c :: cs, acc =>
    if isPySpace c then
      if acc.isEmpty then pySplitWsAux cs []
      else String.mk acc.reverse :: pySplitWsAux cs []
    else pySplitWsAux cs (c :: acc)

/-- Python `str.split()` with no argument: split on runs of whitespace,
never producing empty fields. -/
def pySplitWs (s : String) : List String :=
  pySplitWsAux s.data []

/-- Helper for `pySplitComma`: accumulate the current field (reversed). -/
def pySplitCommaAux : List Char → List Char → List String
  | [], acc => [String.mk acc.reverse]
  | c :: cs, acc =>
    if c = ',' then String.mk acc.reverse :: pySplitCommaAux cs []
    else pySplitCommaAux cs (c :: acc)

/-- Python `str.split(",")`: split on every comma, keeping empty fields
(so the result always has one more field than the string has commas). -/
def pySplitComma (s : String) : List String :=
  pySplitCommaAux s.data []

/-- Python `str.lower()` restricted to ASCII input (all sources are
ASCII-validated before reaching it). -/
def pyLower (s : String) : String :=
  String.mk (s.data.map Char.toLower)

/-- The digit part of a Python decimal integer literal: one or more ASCII
digits, optionally separated by single underscores (an underscore must have a
digit on both sides). -/
def pyDigitPart : List Char → Bool
  | [] => false
  | [c] => c.isDigit
  | c :: d :: rest =>
    if c.isDigit then
      if d = '_' then pyDigitPart rest
      else pyDigitPart (d :: rest)
    else false

/-- Numeric value of a digit part, skipping the underscore separators. -/
def digitsVal (l : List Char) : Nat :=
  l.foldl (fun acc c => if c.isDigit then acc * 10 + (c.toNat - 48) else acc) 0

/-- Python `int(s)` on an ASCII string: strip surrounding whitespace, allow one
optional sign, then require a valid decimal digit part.  Returns `none` where
Python raises `ValueError`. -/
def pyInt (s : String) : Option Int :=
  match (pyStrip s).data with
  | '+' :: rest => if pyDigitPart rest then some (Int.ofNat (digitsVal rest)) else none
  | '-' :: rest => if pyDigitPart rest then some (-(Int.ofNat (digitsVal rest))) else none
  | cs => if pyDigitPart cs then some (Int.ofNat (digitsVal cs)) else none

/-- The `proto_map` dictionary literal of `_parse_line`. -/
def protoMap : List (String × String) :=
  [("6", "tcp"), ("17", "udp"), ("1", "icmp"), ("50", "esp"), ("51", "ah")]

/-- Python `proto_map.get(fields[7], f"proto_{fields[7]}")`. -/
def protoName (s : String) : String :=
  match protoMap.find? (fun p => p.1 == s) with
  | some p => p.2
  | none => "proto_" ++ s

/-- The method `FlowParser._parse_line`: split the stripped line on whitespace; reject
(`None`) when fewer than 14 fields are produced or the first field is not the
literal `"2"` or field 6 does not parse as a Python `int`; otherwise return
the destination port and the protocol name derived from field 7.  The Python
body wraps everything in `try/except (ValueError, IndexError)`, so the only
failure outcome visible to the caller is `None`; the function is total. -/
def parse_line (line : String) : Option (Int × String) :=
  let fields := pySplitWs (pyStrip line)
  if fields.length < 14 ∨ fields.getD 0 "" ≠ "2" then none
  else
    match pyInt (fields.getD 6 "") with
    | none => none
    | some dst_port => some (dst_port, protoName (fields.getD 7 ""))

/-- Python `dict` assignment `d[k] = v`, on the association-list model:
overwrite the first binding of `k` in place, or append a new binding. -/
def dictSet {α β : Type} [DecidableEq α] : List (α × β) → α → β → List (α × β)
  | [], k, v => [(k, v)]
  | (k0, v0) :: rest, k, v =>
    if k0 = k then (k, v) :: rest else (k0, v0) :: dictSet rest k v

/-- Python `d.get(k, default)`. -/
def dictGet {α β : Type} [DecidableEq α] (d : List (α × β)) (k : α) (dflt : β) : β :=
  match d.find? (fun p => decide (p.1 = k)) with
  | some p => p.2
  | none => dflt

/-- The type of `self.lookup_dict`: maps `(port, protocol)` pairs to tags. -/
abbrev LookupDict := List ((Int × String) × String)

/-- The type of `self.tag_count` and `self.traffic_count`: string keys to counts. -/
abbrev CountDict := List (String × Nat)

/-- The diagnostic printed by `_load_lookups` for a malformed mapping line. -/
def skipMsg (line : String) : String :=
  "Skipping bad line: " ++ pyStrip line

/-- The warning printed by `_load_lookups` when the mapping limit is hit. -/
def limitWarning : String := "Warning: Reached 10000 mapping limit"

/-- Result of `_load_lookups`: the table and the diagnostics printed while
loading (in print order). -/
structure LoadResult where
  lookup : LookupDict
  messages : List String
  deriving DecidableEq, Repr

/-- The `for line in f` loop of `_load_lookups`, over the lines after the
header.  `n` is `num_mappings`, `msgs` the diagnostics printed so far.
Mirrors the Python body: limit check first, then blank-line skip, then
`port, proto, tag = line.strip().split(",")` and `int(port)`, both of whose
`ValueError`s are caught and turned into a "Skipping bad line" diagnostic. -/
def load_lookups_loop : List String → LookupDict → Nat → List String → LoadResult
  | [], dict, _, msgs => ⟨dict, msgs⟩
  | line :: rest, dict, n, msgs =>
    if n ≥ 10000 then ⟨dict, msgs ++ [limitWarning]⟩
    else if pyStrip line = "" then load_lookups_loop rest dict n msgs
    else
      match pySplitComma (pyStrip line) with
      | [port, proto, tag] =>
        match pyInt port with
        | some p => load_lookups_loop rest (dictSet dict (p, pyLower proto) tag) (n + 1) msgs
        | none => load_lookups_loop rest dict n (msgs ++ [skipMsg line])
      | _ => load_lookups_loop rest dict n (msgs ++ [skipMsg line])

/-- The method `FlowParser._load_lookups`, given the decoded lines of the lookup source.
`next(f)` on a source with no lines raises `StopIteration`, which the
function does not catch (its `except` clause only handles decode errors),
so construction aborts; otherwise the first line (header) is skipped and the
loop runs over the rest. -/
def load_lookups : List String → Except String LoadResult
  | [] => .error "StopIteration"
  | _ :: rest => .ok (load_lookups_loop rest [] 0 [])

/-- Aggregation state: the `tag_count` and `traffic_count` dictionaries of a
`FlowParser` instance. -/
structure AggState where
  tag_count : CountDict
  traffic_count : CountDict
  deriving DecidableEq, Repr

/-- The fresh counters of a newly constructed `FlowParser`. -/
def initState : AggState := ⟨[], []⟩

/-- The body of the `for line in f` loop of `process_logs` for one line:
parse it; on `None` (a falsy value, like any failed parse here — the success
value is a nonempty tuple, which is always truthy) leave both counters
untouched; otherwise increment `traffic_count[f"{port},{proto}"]` and
`tag_count[lookup_dict.get((port, proto), "Untagged")]`. -/
def process_line (lookup : LookupDict) (st : AggState) (line : String) : AggState :=
  match parse_line line with
  | none => st
  | some (port, proto) =>
    let traffic_key := toString port ++ "," ++ proto
    let traffic := dictSet st.traffic_count traffic_key
        (dictGet st.traffic_count traffic_key 0 + 1)
    let tag := dictGet lookup (port, proto) "Untagged"
    let tags := dictSet st.tag_count tag (dictGet st.tag_count tag 0 + 1)
    ⟨tags, traffic⟩

/-- A log source as `process_logs` sees it: its size in bytes (checked against
the 10 MB limit before any line is read), the lines the ASCII decoder
yielded, and whether a decode failure (a non-ASCII byte) occurs in the stream
after those lines. -/
structure LogStream where
  size : Nat
  lines : List String
  decodeFails : Bool
  deriving DecidableEq, Repr

/-- Outcome of `process_logs`: the state of the parser object afterwards
(Python mutates `self` in place, so increments made before an exception are
kept) and the exception message, if one was raised. -/
structure RunOutcome where
  state : AggState
  err : Option String
  deriving DecidableEq, Repr

/-- The method `FlowParser.process_logs`: fail on an oversized file before reading any
line; otherwise fold the per-line update over the decoded lines, and raise
`ValueError("Log file must be ASCII text")` if the stream then hits a decode
failure.  The counters live in `self`, so they keep the partial results in
every case. -/
def process_logs (lookup : LookupDict) (st : AggState) (src : LogStream) : RunOutcome :=
  if src.size > 10 * 1024 * 1024 then ⟨st, some "Log file too large (>10MB)"⟩
  else
    let final := src.lines.foldl (process_line lookup) st
    if src.decodeFails then ⟨final, some "Log file must be ASCII text"⟩
    else ⟨final, none⟩

/-- Python string `<`: lexicographic comparison of the code-point sequences
(a strict prefix is smaller). -/
def strLtB : List Char → List Char → Bool
  | [], [] => false
  | [], _ :: _ => true
  | _ :: _, [] => false
  | a :: as, b :: bs =>
    if a.toNat < b.toNat then true
    else if b.toNat < a.toNat then false
    else strLtB as bs

/-- Python tuple `≤` on the `(key, count)` items of a counter dictionary:
by key string first (code-point order), by count on equal keys.  This is the
comparison `sorted(d.items())` sorts by. -/
def itemLe (a b : String × Nat) : Bool :=
  if strLtB a.1.data b.1.data then true
  else if strLtB b.1.data a.1.data then false
  else a.2 ≤ b.2

/-- Python `sorted(d.items())`.  `sorted` is a stable comparison sort on a
total preorder, so any stable sort — here insertion sort — computes it. -/
def pySorted (d : CountDict) : CountDict :=
  List.insertionSort (fun a b => itemLe a b = true) d

/-- One data row of the report: `f"{key},{count}"`. -/
def reportLine (p : String × Nat) : String :=
  p.1 ++ "," ++ toString p.2

/-- The method `FlowParser.write_report` as the list of lines of the artifact it writes:
the tag section header lines, the sorted tag rows, a blank separator line
(the leading `\n` of `"\nPort/Protocol Combination Counts:\n"`), the traffic
section header lines, and the sorted traffic rows. -/
def write_report (tag_count traffic_count : CountDict) : List String :=
  ["Tag Counts:", "Tag,Count"]
    ++ (pySorted tag_count).map reportLine
    ++ ["", "Port/Protocol Combination Counts:", "Port,Protocol,Count"]
    ++ (pySorted traffic_count).map reportLine

/-- The function `main` after its argument-count and file-size preflight checks: construct
the `FlowParser` (which loads the lookup table and propagates its exceptions),
process the logs, and only on success write the report.  Any exception is
caught at the top level and turns the run into a failure with no report. -/
def full_run (lookupLines : List String) (logSrc : LogStream) :
    Except String (List String) :=
  match load_lookups lookupLines with
  | .error e => .error e
  | .ok lr =>
    let out := process_logs lr.lookup initState logSrc
    match out.err with
    | some e => .error e
    | none => .ok (write_report out.state.tag_count out.state.traffic_count)

/-- Sum of all counts stored in a counter dictionary. -/
def sumVals (d : CountDict) : Nat :=
  (d.map Prod.snd).sum

/-- The number of lines of a log that `_parse_line` accepts. -/
def countAccepted (lines : List String) : Nat :=
  (lines.filter (fun l => (parse_line l).isSome)).length

/-- Non-strict lexicographic (code-point) order on strings, as used to state
the sortedness of the report sections. -/
def keyLe (s t : String) : Prop :=
  strLtB s.data t.data = true ∨ s = t

example : load_lookups ["Port,Protocol,Tag", "80,TCP,web"]
    = .ok ⟨[((80, "tcp"), "web")], []⟩ := rfl
example : load_lookups ["h", "badline", "80,tcp,web", ""]
    = .ok ⟨[((80, "tcp"), "web")], ["Skipping bad line: badline"]⟩ := rfl
example : load_lookups [] = .error "StopIteration" := rfl
example : process_logs [] initState ⟨100, ["2 a b c d e 443 6 x x x x x x"], false⟩
    = ⟨⟨[("Untagged", 1)], [("443,tcp", 1)]⟩, none⟩ := by decide
example : pySorted [("2,tcp", 3), ("10,tcp", 4)]
    = [("10,tcp", 4), ("2,tcp", 3)] := by decide

example : pyInt "443" = some 443 := by decide
example : pyInt " -7 " = some (-7) := by decide
example : pyInt "1_2" = some 12 := by decide
example : pyInt "x" = none := by decide
example : pyInt "" = none := by decide
example : parse_line "2 a b c d e 443 6 x x x x x x" = some (443, "tcp") := by decide
example : parse_line "2 a b c d e 443 99 x x x x x x" = some (443, "proto_99") := by decide
example : parse_line "3 a b c d e 443 6 x x x x x x" = none := by decide
example : parse_line "2 a b c d e 443 6 x x x x x" = none := by decide

/-! ## Dictionary lemmas -/

theorem dictGet_dictSet_self {α β : Type} [DecidableEq α] (d : List (α × β))
    (k : α) (v : β) (dflt : β) : dictGet (dictSet d k v) k dflt = v := by
  induction d with
  | nil => simp [dictSet, dictGet, List.find?]
  | cons hd tl ih =>
    obtain ⟨k0, v0⟩ := hd
    by_cases h : k0 = k
    · simp [dictSet, dictGet, List.find?, h]
    · simpa [dictSet, dictGet, List.find?, h] using ih

theorem dictGet_dictSet_ne {α β : Type} [DecidableEq α] (d : List (α × β))
    (k k2 : α) (v : β) (dflt : β) (h : k2 ≠ k) :
    dictGet (dictSet d k v) k2 dflt = dictGet d k2 dflt := by
  induction d with
  | nil => simp [dictSet, dictGet, List.find?, Ne.symm h]
  | cons hd tl ih =>
    obtain ⟨k0, v0⟩ := hd
    by_cases h0 : k0 = k
    · subst h0
      simp [dictSet, dictGet, List.find?, Ne.symm h]
    · by_cases h2 : k0 = k2
      · simp [dictSet, dictGet, List.find?, h0, h2, h]
      · simpa [dictSet, dictGet, List.find?, h0, h2] using ih

theorem dictSet_length_le {α β : Type} [DecidableEq α] (d : List (α × β))
    (k : α) (v : β) : (dictSet d k v).length ≤ d.length + 1 := by
  induction d with
  | nil => simp [dictSet]
  | cons hd tl ih =>
    obtain ⟨k0, v0⟩ := hd
    by_cases h : k0 = k
    · simp [dictSet, h]
    · simp [dictSet, h]
      omega

theorem mem_dictSet {α β : Type} [DecidableEq α] (d : List (α × β))
    (k : α) (v : β) (p : α × β) (hp : p ∈ dictSet d k v) : p = (k, v) ∨ p ∈ d := by
  induction d with
  | nil => simpa [dictSet] using hp
  | cons hd tl ih =>
    obtain ⟨k0, v0⟩ := hd
    by_cases h : k0 = k
    · simp only [dictSet, if_pos h, List.mem_cons] at hp
      rcases hp with hp | hp
      · exact Or.inl hp
      · exact Or.inr (List.mem_cons_of_mem _ hp)
    · simp only [dictSet, if_neg h, List.mem_cons] at hp
      rcases hp with hp | hp
      · exact Or.inr (by simp [hp])
      · rcases ih hp with hi | hi
        · exact Or.inl hi
        · exact Or.inr (List.mem_cons_of_mem _ hi)

theorem sumVals_dictInc (d : CountDict) (k : String) :
    sumVals (dictSet d k (dictGet d k 0 + 1)) = sumVals d + 1 := by
  induction d with
  | nil => simp [dictSet, dictGet, sumVals, List.find?]
  | cons hd tl ih =>
    obtain ⟨k0, v0⟩ := hd
    by_cases h : k0 = k
    · simp [dictSet, dictGet, sumVals, List.find?, h]
      omega
    · have hg : dictGet ((k0, v0) :: tl) k 0 = dictGet tl k 0 := by
        simp [dictGet, List.find?, h]
      rw [hg]
      simp only [dictSet, if_neg h]
      simp only [sumVals, List.map_cons, List.sum_cons] at ih ⊢
      omega

/-! ## Claim C1: per-record aggregation -/

/-- C1: for every log line that `_parse_line` accepts as a `(port, protocol)`
pair, `process_logs` increments `traffic_count["<port>,<protocol>"]` by
exactly 1 (initialising at 0 when absent) regardless of the lookup table's
contents, and increments `tag_count[t]` by exactly 1 where `t` is
`lookup_dict[(port, protocol)]` when present and `"Untagged"` otherwise,
leaving every other entry of both counters unchanged; a line the parser
rejects changes neither counter. -/
theorem process_line_updates (lookup : LookupDict) (st : AggState) (line : String) :
    (∀ port proto, parse_line line = some (port, proto) →
      dictGet (process_line lookup st line).traffic_count
          (toString port ++ "," ++ proto) 0
        = dictGet st.traffic_count (toString port ++ "," ++ proto) 0 + 1 ∧
      (∀ k2, k2 ≠ toString port ++ "," ++ proto →
        dictGet (process_line lookup st line).traffic_count k2 0
          = dictGet st.traffic_count k2 0) ∧
      dictGet (process_line lookup st line).tag_count
          (dictGet lookup (port, proto) "Untagged") 0
        = dictGet st.tag_count (dictGet lookup (port, proto) "Untagged") 0 + 1 ∧
      (∀ t2, t2 ≠ dictGet lookup (port, proto) "Untagged" →
        dictGet (process_line lookup st line).tag_count t2 0
          = dictGet st.tag_count t2 0)) ∧
    (parse_line line = none → process_line lookup st line = st) := by
  constructor
  · intro port proto h
    simp only [process_line, h]
    exact ⟨dictGet_dictSet_self _ _ _ _,
      fun k2 hk2 => dictGet_dictSet_ne _ _ _ _ _ hk2,
      dictGet_dictSet_self _ _ _ _,
      fun t2 ht2 => dictGet_dictSet_ne _ _ _ _ _ ht2⟩
  · intro h
    simp [process_line, h]

/-- Witness for C1 at a concrete accepted line: with an empty lookup table and
fresh counters, the line `"2 a b c d e 443 6 x x x x x x"` parses to
`(443, "tcp")` and the run sets `traffic_count["443,tcp"]` and
`tag_count["Untagged"]` from 0 to 1. -/
theorem process_line_updates_witness :
    parse_line "2 a b c d e 443 6 x x x x x x" = some (443, "tcp") ∧
    dictGet (process_line [] initState "2 a b c d e 443 6 x x x x x x").traffic_count
        "443,tcp" 0 = dictGet initState.traffic_count "443,tcp" 0 + 1 ∧
    dictGet (process_line [] initState "2 a b c d e 443 6 x x x x x x").tag_count
        "Untagged" 0 = dictGet initState.tag_count "Untagged" 0 + 1 := by
  have h := (process_line_updates [] initState "2 a b c d e 443 6 x x x x x x").1
    443 "tcp" (by decide)
  exact ⟨by decide, h.1, h.2.2.1⟩

/-! ## Claim C2: the per-line parser -/

/-- C2: `_parse_line` is total (it returns a value for every raw line), and
returns `None` exactly when the whitespace-split stripped line has fewer than
14 fields, or field 0 is not the literal `"2"`, or field 6 does not parse as
a base-10 integer; otherwise it returns the pair of the integer value of
field 6 and the protocol name for field 7, where the fixed table maps
`6→tcp, 17→udp, 1→icmp, 50→esp, 51→ah` and every other field-7 value yields
`"proto_<value>"` rather than a rejection. -/
theorem parse_line_characterization (line : String) :
    (parse_line line = none ↔
      ((pySplitWs (pyStrip line)).length < 14 ∨
        (pySplitWs (pyStrip line)).getD 0 "" ≠ "2" ∨
        pyInt ((pySplitWs (pyStrip line)).getD 6 "") = none)) ∧
    (∀ p : Int, ¬ (pySplitWs (pyStrip line)).length < 14 →
      (pySplitWs (pyStrip line)).getD 0 "" = "2" →
      pyInt ((pySplitWs (pyStrip line)).getD 6 "") = some p →
      parse_line line = some (p, protoName ((pySplitWs (pyStrip line)).getD 7 ""))) ∧
    protoName "6" = "tcp" ∧ protoName "17" = "udp" ∧ protoName "1" = "icmp" ∧
    protoName "50" = "esp" ∧ protoName "51" = "ah" ∧
    (∀ v, v ≠ "6" → v ≠ "17" → v ≠ "1" → v ≠ "50" → v ≠ "51" →
      protoName v = "proto_" ++ v) := by
  refine ⟨?_, ?_, by decide, by decide, by decide, by decide, by decide, ?_⟩
  · unfold parse_line
    by_cases h : (pySplitWs (pyStrip line)).length < 14 ∨
        (pySplitWs (pyStrip line)).getD 0 "" ≠ "2"
    · simp only [if_pos h]
      simp only [true_iff]
      tauto
    · simp only [if_neg h]
      push_neg at h
      obtain ⟨h1, h2⟩ := h
      cases hp : pyInt ((pySplitWs (pyStrip line)).getD 6 "")
      · simp
      · constructor
        · intro hc
          simp at hc
        · intro hc
          rcases hc with hc | hc | hc
          · omega
          · exact absurd h2 hc
          · simp at hc
  · intro p h1 h2 h3
    unfold parse_line
    rw [if_neg (by tauto), h3]
  · intro v h6 h17 h1 h50 h51
    simp [protoName, protoMap, List.find?, beq_false_of_ne (Ne.symm h6),
      beq_false_of_ne (Ne.symm h17), beq_false_of_ne (Ne.symm h1),
      beq_false_of_ne (Ne.symm h50), beq_false_of_ne (Ne.symm h51)]

/-- Witness for C2 at a concrete line with an unmapped protocol number: the
acceptance branch of the characterisation applied to
`"2 a b c d e 443 99 x x x x x x"` yields `(443, "proto_99")`. -/
theorem parse_line_characterization_witness :
    parse_line "2 a b c d e 443 99 x x x x x x" = some (443, "proto_99") := by
  have h := (parse_line_characterization "2 a b c d e 443 99 x x x x x x").2.1
    443 (by decide) (by decide) (by decide)
  simpa using h

/-! ## Claim C3: no destination-port range check exists -/

/-- C3 counterexample: the claim says a destination-port field outside the
unsigned 16-bit range makes `_parse_line` return "not parseable" and the line
contribute to no aggregate; in the code `int(fields[6])` performs no range
check, so the line `"2 a b c d e 70000 6 x x x x x x"` is accepted as
`(70000, "tcp")` and does change the aggregates. -/
theorem parse_line_out_of_range_counterexample :
    parse_line "2 a b c d e 70000 6 x x x x x x" = some (70000, "tcp") ∧
    process_line [] initState "2 a b c d e 70000 6 x x x x x x" ≠ initState := by
  constructor
  · decide
  · decide

/-- C3 amended: a destination-port field that parses as a base-10 integer is
accepted even when the value lies outside the unsigned 16-bit range (negative
or greater than 65535); the parser returns the pair unchanged and the line
increments its traffic-count entry like any accepted line. -/
theorem parse_line_no_range_check (lookup : LookupDict) (st : AggState)
    (line : String) (p : Int)
    (hlen : ¬ (pySplitWs (pyStrip line)).length < 14)
    (hver : (pySplitWs (pyStrip line)).getD 0 "" = "2")
    (hp : pyInt ((pySplitWs (pyStrip line)).getD 6 "") = some p)
    (hrange : p < 0 ∨ 65535 < p) :
    parse_line line
      = some (p, protoName ((pySplitWs (pyStrip line)).getD 7 "")) ∧
    dictGet (process_line lookup st line).traffic_count
        (toString p ++ "," ++ protoName ((pySplitWs (pyStrip line)).getD 7 "")) 0
      = dictGet st.traffic_count
          (toString p ++ "," ++ protoName ((pySplitWs (pyStrip line)).getD 7 "")) 0
        + 1 := by
  have hsome : parse_line line
      = some (p, protoName ((pySplitWs (pyStrip line)).getD 7 "")) := by
    unfold parse_line
    rw [if_neg (by tauto), hp]
  refine ⟨hsome, ?_⟩
  simp only [process_line, hsome]
  exact dictGet_dictSet_self _ _ _ _

/-- Witness for the amended C3 at port 70000. -/
theorem parse_line_no_range_check_witness :
    parse_line "2 a b c d e 70000 6 x x x x x x" = some (70000, "tcp") ∧
    dictGet (process_line [] initState "2 a b c d e 70000 6 x x x x x x").traffic_count
        "70000,tcp" 0 = 1 := by
  have h := parse_line_no_range_check [] initState "2 a b c d e 70000 6 x x x x x x"
    70000 (by decide) (by decide) (by decide) (Or.inr (by norm_num))
  exact ⟨by simpa using h.1, by simpa using h.2⟩

/-! ## Claim C4: decode failure mid-stream -/

/-- C4 counterexample: the claim says that after a decode failure the counters
are left unchanged from their state before the run began.  In the code the
counters live on the `FlowParser` object and are mutated in place before the
exception is raised, so after a run that processed one valid line and then hit
a decode failure they differ from their initial state. -/
theorem decode_failure_counterexample :
    (process_logs [] initState ⟨50, ["2 a b c d e 443 6 x x x x x x"], true⟩).err
      = some "Log file must be ASCII text" ∧
    (process_logs [] initState ⟨50, ["2 a b c d e 443 6 x x x x x x"], true⟩).state
      ≠ initState := by
  constructor
  · rfl
  · decide

/-- C4 amended: a decode failure anywhere in the log stream makes the whole
run fail with a fatal error (`ValueError("Log file must be ASCII text")`) and
no report is written; the counters, however, retain the increments from the
lines decoded before the failure — they are not rolled back, merely never
serialised. -/
theorem decode_failure_aborts_run (lookupLines : List String) (lr : LoadResult)
    (logSrc : LogStream) (hload : load_lookups lookupLines = .ok lr)
    (hsize : ¬ logSrc.size > 10 * 1024 * 1024) (hdec : logSrc.decodeFails = true) :
    process_logs lr.lookup initState logSrc
      = ⟨logSrc.lines.foldl (process_line lr.lookup) initState,
          some "Log file must be ASCII text"⟩ ∧
    full_run lookupLines logSrc = .error "Log file must be ASCII text" := by
  have hp : process_logs lr.lookup initState logSrc
      = ⟨logSrc.lines.foldl (process_line lr.lookup) initState,
          some "Log file must be ASCII text"⟩ := by
    simp [process_logs, hsize, hdec]
  refine ⟨hp, ?_⟩
  simp [full_run, hload, hp]

/-- Witness for the amended C4 at a concrete run: one valid line followed by a
decode failure fails the run with no report. -/
theorem decode_failure_aborts_run_witness :
    full_run ["Port,Protocol,Tag"] ⟨50, ["2 a b c d e 443 6 x x x x x x"], true⟩
      = .error "Log file must be ASCII text" := by
  have h := decode_failure_aborts_run ["Port,Protocol,Tag"] ⟨[], []⟩
    ⟨50, ["2 a b c d e 443 6 x x x x x x"], true⟩ rfl (by norm_num) rfl
  exact h.2

/-! ## Claim C5: the 10,000-mapping limit -/

theorem load_lookups_loop_length_le (lines : List String) (dict : LookupDict)
    (n : Nat) (msgs : List String) (hn : n ≤ 10000) :
    (load_lookups_loop lines dict n msgs).lookup.length
      ≤ dict.length + (10000 - n) := by
  induction lines generalizing dict n msgs with
  | nil => simp [load_lookups_loop]
  | cons line rest ih =>
    by_cases h : n ≥ 10000
    · simp [load_lookups_loop, h]
    · simp only [load_lookups_loop, if_neg h]
      by_cases hb : pyStrip line = ""
      · simp only [if_pos hb]
        exact ih dict n msgs hn
      · simp only [if_neg hb]
        split
        · rename_i port proto tag heq
          split
          · rename_i p hint
            have hlen := dictSet_length_le dict (p, pyLower proto) tag
            have hrec := ih (dictSet dict (p, pyLower proto) tag) (n + 1) msgs
              (by omega)
            omega
          · rename_i hint
            exact ih dict n (msgs ++ [skipMsg line]) hn
        · exact ih dict n (msgs ++ [skipMsg line]) hn

/-- C5: the loader retains at most 10,000 mappings: every successful load
returns a table of at most 10,000 entries, and as soon as the running count
of accepted mappings reaches 10,000 while lines remain, the loop returns the
table built so far — ignoring all remaining lines — and appends the limit
warning to the printed diagnostics instead of raising an error. -/
theorem load_lookups_limit :
    (∀ lines lr, load_lookups lines = .ok lr → lr.lookup.length ≤ 10000) ∧
    (∀ line rest dict msgs, load_lookups_loop (line :: rest) dict 10000 msgs
        = ⟨dict, msgs ++ [limitWarning]⟩) := by
  constructor
  · intro lines lr h
    cases lines with
    | nil => simp [load_lookups] at h
    | cons hd tl =>
      simp only [load_lookups, Except.ok.injEq] at h
      have hlen := load_lookups_loop_length_le tl [] 0 [] (by omega)
      rw [h] at hlen
      simpa using hlen
  · intro line rest dict msgs
    simp [load_lookups_loop]

/-- Witness for C5: a concrete one-mapping load is within the bound, and the
loop with the counter already at 10,000 drops a remaining valid mapping line
and emits the warning. -/
theorem load_lookups_limit_witness :
    (LoadResult.mk [((80, "tcp"), "web")] []).lookup.length ≤ 10000 ∧
    load_lookups_loop ["80,tcp,web"] [] 10000 []
      = ⟨[], [limitWarning]⟩ := by
  constructor
  · exact load_lookups_limit.1 ["Port,Protocol,Tag", "80,tcp,web"]
      ⟨[((80, "tcp"), "web")], []⟩ rfl
  · exact load_lookups_limit.2 "80,tcp,web" [] [] []

/-! ## Claim C6: recoverable lookup-line errors -/

/-- C6: while the counter is below the limit, a line that is blank after
stripping is skipped silently (no diagnostic, no count, load continues); a
non-blank line that does not split on `","` into exactly three fields, or
whose port field does not parse as a base-10 integer, is skipped with a
"Skipping bad line" diagnostic and the load continues with the table and the
count unchanged — such lines never abort the load. -/
theorem load_lookups_skips_bad_lines (line : String) (rest : List String)
    (dict : LookupDict) (n : Nat) (msgs : List String) (hn : n < 10000) :
    (pyStrip line = "" → load_lookups_loop (line :: rest) dict n msgs
        = load_lookups_loop rest dict n msgs) ∧
    (pyStrip line ≠ "" → (pySplitComma (pyStrip line)).length ≠ 3 →
      load_lookups_loop (line :: rest) dict n msgs
        = load_lookups_loop rest dict n (msgs ++ [skipMsg line])) ∧
    (∀ a b c, pyStrip line ≠ "" → pySplitComma (pyStrip line) = [a, b, c] →
      pyInt a = none →
      load_lookups_loop (line :: rest) dict n msgs
        = load_lookups_loop rest dict n (msgs ++ [skipMsg line])) := by
  have hnot : ¬ n ≥ 10000 := by omega
  refine ⟨?_, ?_, ?_⟩
  · intro hb
    simp [load_lookups_loop, hnot, hb]
  · intro hb hs
    simp only [load_lookups_loop, if_neg hnot, if_neg hb]
    cases hsplit : pySplitComma (pyStrip line) with
    | nil => rfl
    | cons a t1 =>
      cases t1 with
      | nil => rfl
      | cons b t2 =>
        cases t2 with
        | nil => rfl
        | cons c t3 =>
          cases t3 with
          | cons d t4 => rfl
          | nil => exact absurd (by rw [hsplit]; rfl) hs
  · intro a b c hb hsplit hint
    simp only [load_lookups_loop, if_neg hnot, if_neg hb, hsplit, hint]

/-- Witness for C6 at concrete lines: a blank line, a two-field line and a
bad-port line are each skipped without aborting, the latter two with a
diagnostic. -/
theorem load_lookups_skips_bad_lines_witness :
    load_lookups_loop ["  "] [] 0 [] = load_lookups_loop [] [] 0 [] ∧
    load_lookups_loop ["80,tcp"] [] 0 []
      = load_lookups_loop [] [] 0 (["Skipping bad line: 80,tcp"]) ∧
    load_lookups_loop ["x,tcp,web"] [] 0 []
      = load_lookups_loop [] [] 0 (["Skipping bad line: x,tcp,web"]) := by
  refine ⟨?_, ?_, ?_⟩
  · exact (load_lookups_skips_bad_lines "  " [] [] 0 [] (by omega)).1 (by decide)
  · have h := (load_lookups_skips_bad_lines "80,tcp" [] [] 0 [] (by omega)).2.1
      (by decide) (by decide)
    simpa [skipMsg] using h
  · have h := (load_lookups_skips_bad_lines "x,tcp,web" [] [] 0 [] (by omega)).2.2
      "x" "tcp" "web" (by decide) (by decide) (by decide)
    simpa [skipMsg] using h

/-! ## Order lemmas for the report sort -/

theorem strLtB_irrefl (s : List Char) : strLtB s s = false := by
  induction s with
  | nil => rfl
  | cons c cs ih => simp [strLtB, ih]

theorem strLtB_eq_of_not (s t : List Char) (hst : strLtB s t = false)
    (hts : strLtB t s = false) : s = t := by
  induction s generalizing t with
  | nil =>
    cases t with
    | nil => rfl
    | cons b bs => simp [strLtB] at hst
  | cons a as ih =>
    cases t with
    | nil => simp [strLtB] at hts
    | cons b bs =>
      simp only [strLtB] at hst hts
      by_cases hab : a.toNat < b.toNat
      · rw [if_pos hab] at hst
        exact absurd hst (by simp)
      · by_cases hba : b.toNat < a.toNat
        · rw [if_pos hba] at hts
          exact absurd hts (by simp)
        · rw [if_neg hab, if_neg hba] at hst
          rw [if_neg hba, if_neg hab] at hts
          have hn : a.toNat = b.toNat := by omega
          have hchar : a = b := Char.ext (UInt32.toNat.inj hn)
          rw [hchar, ih bs hst hts]

theorem strLtB_trans (s t u : List Char) (h1 : strLtB s t = true)
    (h2 : strLtB t u = true) : strLtB s u = true := by
  induction s generalizing t u with
  | nil =>
    cases u with
    | nil =>
      cases t with
      | nil => simp [strLtB] at h1
      | cons b bs => simp [strLtB] at h2
    | cons c cs => rfl
  | cons a as ih =>
    cases t with
    | nil => simp [strLtB] at h1
    | cons b bs =>
      cases u with
      | nil => simp [strLtB] at h2
      | cons c cs =>
        simp only [strLtB] at h1 h2 ⊢
        by_cases hab : a.toNat < b.toNat
        · by_cases hbc : b.toNat < c.toNat
          · rw [if_pos (by omega : a.toNat < c.toNat)]
          · by_cases hcb : c.toNat < b.toNat
            · rw [if_neg hbc, if_pos hcb] at h2
              exact absurd h2 (by simp)
            · rw [if_pos (by omega : a.toNat < c.toNat)]
        · by_cases hba : b.toNat < a.toNat
          · rw [if_neg hab, if_pos hba] at h1
            exact absurd h1 (by simp)
          · by_cases hbc : b.toNat < c.toNat
            · rw [if_pos (by omega : a.toNat < c.toNat)]
            · by_cases hcb : c.toNat < b.toNat
              · rw [if_neg hbc, if_pos hcb] at h2
                exact absurd h2 (by simp)
              · rw [if_neg hab, if_neg hba] at h1
                rw [if_neg hbc, if_neg hcb] at h2
                rw [if_neg (by omega : ¬ a.toNat < c.toNat),
                  if_neg (by omega : ¬ c.toNat < a.toNat)]
                exact ih bs cs h1 h2

theorem itemLe_total (a b : String × Nat) :
    itemLe a b = true ∨ itemLe b a = true := by
  unfold itemLe
  by_cases h1 : strLtB a.1.data b.1.data = true
  · left
    rw [if_pos h1]
  · by_cases h2 : strLtB b.1.data a.1.data = true
    · right
      rw [if_pos h2]
    · rcases Nat.le_total a.2 b.2 with h | h
      · left
        rw [if_neg h1, if_neg h2]
        exact decide_eq_true h
      · right
        rw [if_neg h2, if_neg h1]
        exact decide_eq_true h

theorem itemLe_trans (a b c : String × Nat) (h1 : itemLe a b = true)
    (h2 : itemLe b c = true) : itemLe a c = true := by
  unfold itemLe at h1 h2 ⊢
  by_cases pab : strLtB a.1.data b.1.data = true
  · by_cases pbc : strLtB b.1.data c.1.data = true
    · rw [if_pos (strLtB_trans _ _ _ pab pbc)]
    · by_cases pcb : strLtB c.1.data b.1.data = true
      · rw [if_neg pbc, if_pos pcb] at h2
        exact absurd h2 (by simp)
      · have he := strLtB_eq_of_not b.1.data c.1.data
          (by simpa using pbc) (by simpa using pcb)
        rw [if_pos (by rw [← he]; exact pab)]
  · by_cases pba : strLtB b.1.data a.1.data = true
    · rw [if_neg pab, if_pos pba] at h1
      exact absurd h1 (by simp)
    · have he := strLtB_eq_of_not a.1.data b.1.data
        (by simpa using pab) (by simpa using pba)
      rw [if_neg pab, if_neg pba] at h1
      by_cases pbc : strLtB b.1.data c.1.data = true
      · rw [if_pos (by rw [he]; exact pbc)]
      · by_cases pcb : strLtB c.1.data b.1.data = true
        · rw [if_neg pbc, if_pos pcb] at h2
          exact absurd h2 (by simp)
        · have he2 := strLtB_eq_of_not b.1.data c.1.data
            (by simpa using pbc) (by simpa using pcb)
          rw [if_neg pbc, if_neg pcb] at h2
          rw [if_neg (by rw [he, he2]; simp [strLtB_irrefl]
              : ¬ strLtB a.1.data c.1.data = true),
            if_neg (by rw [he, he2]; simp [strLtB_irrefl]
              : ¬ strLtB c.1.data a.1.data = true)]
          exact decide_eq_true
            (Nat.le_trans (of_decide_eq_true h1) (of_decide_eq_true h2))

theorem itemLe_keyLe (a b : String × Nat) (h : itemLe a b = true) :
    keyLe a.1 b.1 := by
  unfold itemLe at h
  by_cases p1 : strLtB a.1.data b.1.data = true
  · exact Or.inl p1
  · by_cases p2 : strLtB b.1.data a.1.data = true
    · rw [if_neg p1, if_pos p2] at h
      exact absurd h (by simp)
    · have he := strLtB_eq_of_not a.1.data b.1.data
        (by simpa using p1) (by simpa using p2)
      exact Or.inr (congrArg String.mk he)

theorem pySorted_sorted (d : CountDict) :
    List.Sorted (fun a b => itemLe a b = true) (pySorted d) := by
  haveI : IsTotal (String × Nat) (fun a b => itemLe a b = true) := ⟨itemLe_total⟩
  haveI : IsTrans (String × Nat) (fun a b => itemLe a b = true) := ⟨itemLe_trans⟩
  exact List.sorted_insertionSort _ _

theorem pySorted_perm (d : CountDict) : (pySorted d).Perm d :=
  List.perm_insertionSort _ _

theorem pySorted_keys_sorted (d : CountDict) :
    List.Sorted keyLe ((pySorted d).map Prod.fst) :=
  List.Pairwise.map Prod.fst (fun a b h => itemLe_keyLe a b h) (pySorted_sorted d)

/-! ## Claim C7: report layout -/

/-- C7: the report is exactly the two header lines of the tag section, one
`"<tag>,<count>"` row per `tag_count` entry in ascending lexicographic
(code-point) order of tag, a blank line, the two header lines of the traffic
section, and one `"<port>,<protocol>,<count>"` row per `traffic_count` entry
in ascending lexicographic order of the `"port,protocol"` key — so
`"10,tcp"` sorts before `"2,tcp"` — and with both maps empty the headers and
the blank separator are still emitted with zero data rows. -/
theorem write_report_layout (tags traffic : CountDict) :
    write_report tags traffic
      = ["Tag Counts:", "Tag,Count"]
          ++ (pySorted tags).map reportLine
          ++ ["", "Port/Protocol Combination Counts:", "Port,Protocol,Count"]
          ++ (pySorted traffic).map reportLine ∧
    (pySorted tags).Perm tags ∧
    (pySorted traffic).Perm traffic ∧
    List.Sorted keyLe ((pySorted tags).map Prod.fst) ∧
    List.Sorted keyLe ((pySorted traffic).map Prod.fst) ∧
    write_report [] []
      = ["Tag Counts:", "Tag,Count", "",
          "Port/Protocol Combination Counts:", "Port,Protocol,Count"] ∧
    pySorted [("2,tcp", 3), ("10,tcp", 4)] = [("10,tcp", 4), ("2,tcp", 3)] :=
  ⟨rfl, pySorted_perm tags, pySorted_perm traffic, pySorted_keys_sorted tags,
    pySorted_keys_sorted traffic, rfl, by decide⟩

/-! ## Claim C8: determinism of aggregation -/

/-- C8: aggregation is deterministic and replayable: two runs of the
aggregator from fresh counters over the same lookup table and equal log
sources produce identical outcomes (hence identical `tag_count` and
`traffic_count`), and within the size limit the final state is a pure fold of
the per-line update over the decoded lines, so it depends on nothing but the
lookup table and the line sequence. -/
theorem aggregation_deterministic (lookup : LookupDict) (src1 src2 : LogStream)
    (h : src1 = src2) :
    process_logs lookup initState src1 = process_logs lookup initState src2 ∧
    (¬ src1.size > 10 * 1024 * 1024 →
      (process_logs lookup initState src1).state
        = src1.lines.foldl (process_line lookup) initState) := by
  subst h
  refine ⟨rfl, fun hs => ?_⟩
  cases hdec : src1.decodeFails <;> simp [process_logs, hs, hdec]

/-- Witness for C8 at a concrete source processed twice. -/
theorem aggregation_deterministic_witness :
    process_logs [] initState ⟨50, ["2 a b c d e 443 6 x x x x x x"], false⟩
      = process_logs [] initState ⟨50, ["2 a b c d e 443 6 x x x x x x"], false⟩ ∧
    (process_logs [] initState ⟨50, ["2 a b c d e 443 6 x x x x x x"], false⟩).state
      = ["2 a b c d e 443 6 x x x x x x"].foldl (process_line []) initState := by
  have h := aggregation_deterministic []
    ⟨50, ["2 a b c d e 443 6 x x x x x x"], false⟩
    ⟨50, ["2 a b c d e 443 6 x x x x x x"], false⟩ rfl
  exact ⟨h.1, h.2 (by norm_num)⟩

/-! ## Claim C9: counter sums equal the number of accepted lines -/

theorem process_lines_invariant (lookup : LookupDict) (lines : List String)
    (st : AggState) :
    sumVals (lines.foldl (process_line lookup) st).tag_count
      = sumVals st.tag_count + countAccepted lines ∧
    sumVals (lines.foldl (process_line lookup) st).traffic_count
      = sumVals st.traffic_count + countAccepted lines ∧
    ((∀ p ∈ st.tag_count, 1 ≤ p.2) →
      ∀ p ∈ (lines.foldl (process_line lookup) st).tag_count, 1 ≤ p.2) ∧
    ((∀ p ∈ st.traffic_count, 1 ≤ p.2) →
      ∀ p ∈ (lines.foldl (process_line lookup) st).traffic_count, 1 ≤ p.2) := by
  induction lines generalizing st with
  | nil => simp [countAccepted]
  | cons line rest ih =>
    cases hp : parse_line line with
    | none =>
      have hid : process_line lookup st line = st := by
        simp [process_line, hp]
      have hc : countAccepted (line :: rest) = countAccepted rest := by
        simp [countAccepted, List.filter_cons, hp]
      rw [List.foldl_cons, hid, hc]
      exact ih st
    | some pr =>
      obtain ⟨port, proto⟩ := pr
      have hc : countAccepted (line :: rest) = countAccepted rest + 1 := by
        simp [countAccepted, List.filter_cons, hp]
      have hstate : process_line lookup st line
          = ⟨dictSet st.tag_count (dictGet lookup (port, proto) "Untagged")
                (dictGet st.tag_count (dictGet lookup (port, proto) "Untagged") 0 + 1),
              dictSet st.traffic_count (toString port ++ "," ++ proto)
                (dictGet st.traffic_count (toString port ++ "," ++ proto) 0 + 1)⟩ := by
        simp [process_line, hp]
      obtain ⟨i1, i2, i3, i4⟩ := ih (process_line lookup st line)
      refine ⟨?_, ?_, ?_, ?_⟩
      · rw [List.foldl_cons, i1, hstate, hc]
        simp only
        rw [sumVals_dictInc]
        omega
      · rw [List.foldl_cons, i2, hstate, hc]
        simp only
        rw [sumVals_dictInc]
        omega
      · intro hpos
        rw [List.foldl_cons]
        apply i3
        intro p hmem
        rw [hstate] at hmem
        simp only at hmem
        rcases mem_dictSet _ _ _ _ hmem with h | h
        · rw [h]
          omega
        · exact hpos p h
      · intro hpos
        rw [List.foldl_cons]
        apply i4
        intro p hmem
        rw [hstate] at hmem
        simp only at hmem
        rcases mem_dictSet _ _ _ _ hmem with h | h
        · rw [h]
          omega
        · exact hpos p h

/-- C9: after aggregating any log stream within the size limit from fresh
counters, the sum of all `tag_count` values equals the sum of all
`traffic_count` values, both equal the number of lines the parser accepted,
and every stored count is at least 1. -/
theorem aggregate_sums (lookup : LookupDict) (src : LogStream)
    (hsize : ¬ src.size > 10 * 1024 * 1024) :
    sumVals (process_logs lookup initState src).state.tag_count
      = countAccepted src.lines ∧
    sumVals (process_logs lookup initState src).state.traffic_count
      = countAccepted src.lines ∧
    (∀ p ∈ (process_logs lookup initState src).state.tag_count, 1 ≤ p.2) ∧
    (∀ p ∈ (process_logs lookup initState src).state.traffic_count, 1 ≤ p.2) := by
  have hstate : (process_logs lookup initState src).state
      = src.lines.foldl (process_line lookup) initState := by
    cases hdec : src.decodeFails <;> simp [process_logs, hsize, hdec]
  obtain ⟨i1, i2, i3, i4⟩ := process_lines_invariant lookup src.lines initState
  rw [hstate]
  exact ⟨by simpa [initState, sumVals] using i1,
    by simpa [initState, sumVals] using i2,
    i3 (by simp [initState]), i4 (by simp [initState])⟩

/-- Witness for C9 at a concrete two-line stream with one rejected line. -/
theorem aggregate_sums_witness :
    sumVals (process_logs [] initState
        ⟨50, ["2 a b c d e 443 6 x x x x x x", "bad"], false⟩).state.tag_count
      = countAccepted ["2 a b c d e 443 6 x x x x x x", "bad"] := by
  have h := aggregate_sums []
    ⟨50, ["2 a b c d e 443 6 x x x x x x", "bad"], false⟩ (by norm_num)
  exact h.1

/-! ## Claim C10: empty lookup source -/

/-- C10: a lookup source with no lines at all makes `next(f)` raise
`StopIteration`, which `_load_lookups` does not catch, so `FlowParser`
construction aborts with a fatal error instead of returning an empty table,
and the whole run fails — no log line is processed and no report is
written. -/
theorem empty_lookup_aborts (logSrc : LogStream) :
    load_lookups [] = .error "StopIteration" ∧
    full_run [] logSrc = .error "StopIteration" :=
  ⟨rfl, rfl⟩

end FlowLog
